import Mathlib

/-!
Verification of the overstory session driver and console reporter.

The console reporter (`formatLogLine`, `printToConsole`, `extractTime`,
`formatData`) is embedded directly from `src/logging/reporter.ts`.

The session driver (`createSession`, `listSessions`, `killSession`,
`isSessionAlive`, `sendKeys`) lives in `src/worktree/tmux.ts`, whose
implementation is not part of the provided sources (only its test suite is);
those definitions are modelled from the specification, with each external
process invocation represented by its captured result (`ProcResult`).
-/

set_option autoImplicit false
set_option linter.unusedVariables false

namespace Overstory

/-- Result of one external process invocation as seen by the driver:
captured stdout, captured stderr, and the exit code.  This models the
Process Invoker primitive (the spec's leaf dependency). -/
structure ProcResult where
  stdout : String
  stderr : String
  exitCode : Nat
deriving Repr, DecidableEq

/-- One active multiplexer-hosted session: the name supplied at creation and
the operating-system pid discovered via the list operation. -/
structure Session where
  name : String
  pid : Nat
deriving Repr, DecidableEq

/-- Modelled from the spec: the DriverError taxonomy of `src/worktree/tmux.ts`
(missing from the sources).  `invocationFailure` is a non-zero exit of the
external tool, carrying the subject session name when the operation is
session-scoped and `none` for the non-scoped list path, together with the
captured stderr text.  `pidNotResolved` is the distinct class for a
creation whose first step succeeded but whose session did not appear in the
subsequent listing; it names the session. -/
inductive DriverError where
  | invocationFailure (agentName : Option String) (stderrText : String)
  | pidNotResolved (agentName : String)
deriving Repr, DecidableEq

/-- The subject session name carried by an error, retrievable directly from
the error value (the `agentName` field of the concrete error type). -/
def DriverError.subjectName : DriverError → Option String
  | .invocationFailure a _ => a
  | .pidNotResolved n => some n

/-- The raw stderr diagnostic carried by an error, when present. -/
def DriverError.diagnostic : DriverError → Option String
  | .invocationFailure _ s => some s
  | .pidNotResolved _ => none

/-- Whether `needle` occurs as a contiguous sublist of the given list. -/
def listContains (needle : List Char) : List Char → Bool
  | [] => needle.isEmpty
  | c :: rest => needle.isPrefixOf (c :: rest) || listContains needle rest

/-- Substring test on strings, as JavaScript `hay.includes(needle)`. -/
def containsSub (hay needle : String) : Bool :=
  listContains needle.data hay.data

/-- Split a character list on a separator, JavaScript `String.split`
semantics: the empty input yields one empty field, and a trailing separator
yields a trailing empty field. -/
def splitOnChar (sep : Char) : List Char → List (List Char)
  | [] => [[]]
  | c :: rest =>
    if c = sep then [] :: splitOnChar sep rest
    else
      match splitOnChar sep rest with
      | [] => [[c]]
      | h :: t => (c :: h) :: t

/-- Split a character list at the first occurrence of `sep`: `none` when the
separator does not occur. -/
def splitFirst (sep : Char) : List Char → Option (List Char × List Char)
  | [] => none
  | c :: rest =>
    if c = sep then some ([], rest)
    else (splitFirst sep rest).map (fun p => (c :: p.1, p.2))

/-- Value of a decimal digit string. -/
def decimalValue (l : List Char) : Nat :=
  l.foldl (fun acc c => acc * 10 + (c.toNat - Char.toNat '0')) 0

/-- Modelled from the spec: the numeric-PID check of the list parser in
`src/worktree/tmux.ts` (missing from the sources).  A field is numeric when
it is non-empty and consists of decimal digits. -/
def parseNat (l : List Char) : Option Nat :=
  if !l.isEmpty && l.all Char.isDigit then some (decimalValue l) else none

/-- Modelled from the spec: parsing of one `name:pid` line by
`src/worktree/tmux.ts` (missing from the sources).  The line is split on the
first colon; it is malformed and skipped when it has no colon, an empty name
segment, or a non-numeric pid segment. -/
def parseSessionLine (line : List Char) : Option Session :=
  match splitFirst ':' line with
  | none => none
  | some (namePart, pidPart) =>
    if namePart.isEmpty then none
    else
      match parseNat pidPart with
      | none => none
      | some pid => some ⟨String.mk namePart, pid⟩

/-- Modelled from the spec: the list-output parser of `src/worktree/tmux.ts`
(missing from the sources).  The raw stdout is split into lines and each
well-formed `name:pid` line yields a Session; malformed lines are silently
skipped, and order follows the raw output. -/
def parseSessions (out : String) : List Session :=
  (splitOnChar '\n' out.data).filterMap parseSessionLine

/-- Modelled from the spec: the benign-empty stderr classification of
`listSessions` in `src/worktree/tmux.ts` (missing from the sources).  A
non-zero exit whose stderr mentions the multiplexer server not running or no
sessions existing is a legitimate empty state. -/
def isBenignEmpty (stderrText : String) : Bool :=
  containsSub stderrText "no server running" || containsSub stderrText "no sessions"

/-- Modelled from the spec: `listSessions` of `src/worktree/tmux.ts` (missing
from the sources), applied to the captured result of its single external
invocation.  Exit zero parses stdout; a non-zero exit with benign stderr is
an empty result; any other non-zero exit is an invocation failure carrying
the stderr text and no session name. -/
def listSessions (r : ProcResult) : Except DriverError (List Session) :=
  if r.exitCode = 0 then .ok (parseSessions r.stdout)
  else if isBenignEmpty r.stderr then .ok []
  else .error (.invocationFailure none r.stderr)

/-- Modelled from the spec: `createSession` of `src/worktree/tmux.ts` (missing
from the sources), applied to the captured results of its two external
invocations (create, then list).  A failed create raises immediately with the
name; afterwards the listing is parsed and the pid of the entry matching the
requested name is returned, `pidNotResolved` being raised when no entry
matches. -/
def createSession (name workingDirectory command : String)
    (createRes listRes : ProcResult) : Except DriverError Nat :=
  if createRes.exitCode ≠ 0 then
    .error (.invocationFailure (some name) createRes.stderr)
  else
    match listSessions listRes with
    | .error e => .error e
    | .ok sessions =>
      match sessions.find? (fun s => s.name == name) with
      | some s => .ok s.pid
      | none => .error (.pidNotResolved name)

/-- Modelled from the spec: `killSession` of `src/worktree/tmux.ts` (missing
from the sources).  Any non-zero exit raises an error carrying the name and
the stderr text. -/
def killSession (name : String) (r : ProcResult) : Except DriverError Unit :=
  if r.exitCode = 0 then .ok ()
  else .error (.invocationFailure (some name) r.stderr)

/-- Modelled from the spec: `sendKeys` of `src/worktree/tmux.ts` (missing from
the sources).  Any non-zero exit raises an error carrying the name and the
stderr text. -/
def sendKeys (name text : String) (r : ProcResult) : Except DriverError Unit :=
  if r.exitCode = 0 then .ok ()
  else .error (.invocationFailure (some name) r.stderr)

/-- Modelled from the spec: `isSessionAlive` of `src/worktree/tmux.ts`
(missing from the sources).  It returns a plain boolean — exit zero means
alive — and has no error channel at all: it never raises. -/
def isSessionAlive (name : String) (r : ProcResult) : Bool :=
  r.exitCode == 0

/-- Modelled from the spec: argument vector of the create operation. -/
def createArgs (name workingDirectory command : String) : List String :=
  ["tmux", "new-session", "-d", "-s", name, "-c", workingDirectory, command]

/-- Modelled from the spec: argument vector of the list operation. -/
def listArgs : List String :=
  ["tmux", "list-sessions", "-F", "#\x7bsession_name\x7d:#\x7bpid\x7d"]

/-- Modelled from the spec: argument vector of the kill operation. -/
def killArgs (name : String) : List String :=
  ["tmux", "kill-session", "-t", name]

/-- Modelled from the spec: argument vector of the probe operation. -/
def probeArgs (name : String) : List String :=
  ["tmux", "has-session", "-t", name]

/-- Modelled from the spec: argument vector of the send-keys operation, the
submit keystroke token always appended after the literal text. -/
def sendArgs (name text : String) : List String :=
  ["tmux", "send-keys", "-t", name, text, "Enter"]

/-- Log level of a `LogEvent`, from `src/types.ts` as used by
`src/logging/reporter.ts`. -/
inductive Level where
  | debug
  | info
  | warn
  | error
deriving Repr, DecidableEq, BEq

/-- A data value of a log event's record, from `src/logging/reporter.ts`
`formatData`: `nullv` covers both `undefined` and `null`; `obj` carries the
`JSON.stringify` rendering of a nested object, treated as an opaque string
produced by the standard library. -/
inductive DataValue where
  | nullv
  | str (s : String)
  | num (n : Int)
  | boolv (b : Bool)
  | obj (json : String)
deriving Repr, DecidableEq

/-- A log event as consumed by `src/logging/reporter.ts`: timestamp, level,
optional agent name, event name, and the data record (an insertion-ordered
key/value list, as `Object.entries` presents it). -/
structure LogEvent where
  timestamp : String
  level : Level
  agentName : Option String
  event : String
  data : List (String × DataValue)
deriving Repr

/-- ANSI escape codes used by the reporter, from `src/logging/reporter.ts`. -/
def ANSI.reset : String := "\x1b[0m"

/-- ANSI gray. -/
def ANSI.gray : String := "\x1b[90m"

/-- ANSI blue. -/
def ANSI.blue : String := "\x1b[34m"

/-- ANSI yellow. -/
def ANSI.yellow : String := "\x1b[33m"

/-- ANSI red. -/
def ANSI.red : String := "\x1b[31m"

/-- ANSI bold. -/
def ANSI.bold : String := "\x1b[1m"

/-- ANSI dim. -/
def ANSI.dim : String := "\x1b[2m"

/-- LEVEL_COLORS of `src/logging/reporter.ts`. -/
def levelColor : Level → String
  | .debug => ANSI.gray
  | .info => ANSI.blue
  | .warn => ANSI.yellow
  | .error => ANSI.red

/-- LEVEL_LABELS of `src/logging/reporter.ts`. -/
def levelLabel : Level → String
  | .debug => "DBG"
  | .info => "INF"
  | .warn => "WRN"
  | .error => "ERR"

/-- Shape check for the capture group of the regex `T(dd:dd:dd)` of
`extractTime` in `src/logging/reporter.ts`: exactly eight characters,
two digits, a colon, two digits, a colon, two digits. -/
def timeShape : List Char → Bool
  | [d1, d2, c1, d3, d4, c2, d5, d6] =>
    d1.isDigit && d2.isDigit && c1 == ':' && d3.isDigit && d4.isDigit &&
      c2 == ':' && d5.isDigit && d6.isDigit
  | _ => false

/-- Whether the regex of `extractTime` matches at the start of the list:
a literal T followed by a `dd:dd:dd` group. -/
def startsWithTime : List Char → Bool
  | [] => false
  | c :: rest => c == 'T' && timeShape (rest.take 8)

/-- Leftmost-match search of the regex `T(dd:dd:dd)` over the characters of
the timestamp, returning the capture group, as `RegExp.exec` does in
`extractTime` of `src/logging/reporter.ts`. -/
def extractTimeAux : List Char → Option String
  | [] => none
  | c :: rest =>
    if startsWithTime (c :: rest) then some (String.mk (rest.take 8))
    else extractTimeAux rest

/-- `extractTime` of `src/logging/reporter.ts`: the `HH:MM:SS` capture of the
first regex match, falling back to the raw timestamp when the regex does not
match. -/
def extractTime (timestamp : String) : String :=
  match extractTimeAux timestamp.data with
  | some t => t
  | none => timestamp

/-- One `key=value` entry of `formatData` in `src/logging/reporter.ts`:
null-ish values print as `null`, strings containing a space are quoted,
nested objects print their JSON rendering, other primitives print their
standard string form. -/
def renderEntry (key : String) (v : DataValue) : String :=
  match v with
  | .nullv => key ++ "=null"
  | .str s =>
    if containsSub s " " then key ++ "=\"" ++ s ++ "\"" else key ++ "=" ++ s
  | .num n => key ++ "=" ++ toString n
  | .boolv b => key ++ "=" ++ (if b then "true" else "false")
  | .obj json => key ++ "=" ++ json

/-- `formatData` of `src/logging/reporter.ts`: space-separated `key=value`
pairs, the empty string for an empty record. -/
def formatData (data : List (String × DataValue)) : String :=
  if data.isEmpty then ""
  else String.intercalate " " (data.map (fun p => renderEntry p.1 p.2))

/-- `formatLogLine` of `src/logging/reporter.ts`: one colored line
`[HH:MM:SS] LVL agent | event key=value ...`.  The agent part appears only
for a truthy (present and non-empty) agent name, and the data suffix only
for a non-empty formatted record. -/
def formatLogLine (event : LogEvent) : String :=
  let color := levelColor event.level
  let label := levelLabel event.level
  let time := extractTime event.timestamp
  let agentPart :=
    match event.agentName with
    | some a => if a = "" then "" else ANSI.dim ++ a ++ ANSI.reset ++ " | "
    | none => ""
  let dataPart := formatData event.data
  let dataSuffix :=
    if dataPart.length > 0 then " " ++ ANSI.dim ++ dataPart ++ ANSI.reset
    else ""
  ANSI.dim ++ "[" ++ time ++ "]" ++ ANSI.reset ++ " " ++ color ++ ANSI.bold ++
    label ++ ANSI.reset ++ " " ++ agentPart ++ event.event ++ dataSuffix

/-- Where `printToConsole` writes: nothing, one line to stdout, or one line
to stderr. -/
inductive ConsoleWrite where
  | silent
  | stdoutLine (line : String)
  | stderrLine (line : String)
deriving Repr, DecidableEq

/-- `printToConsole` of `src/logging/reporter.ts`: debug events are dropped
unless verbose; otherwise the formatted line goes to stderr for errors and to
stdout for every other level. -/
def printToConsole (event : LogEvent) (verbose : Bool) : ConsoleWrite :=
  if verbose = false ∧ event.level = Level.debug then .silent
  else
    let line := formatLogLine event
    if event.level = Level.error then .stderrLine line
    else .stdoutLine line

/-- Raw characters of a well-formed list output: one `name:pid` line per
pair (name string, pid digit string), each line terminated by a newline, in
order. -/
def rawLines : List (String × String) → List Char
  | [] => []
  | p :: rest => p.1.data ++ ':' :: (p.2.data ++ '\n' :: rawLines rest)

/-- Join character lines with newline separators. -/
def joinChars : List (List Char) → List Char
  | [] => []
  | [l] => l
  | l :: rest => l ++ '\n' :: joinChars rest

theorem createSession_ok_steps (name wd cmd : String)
    (createRes listRes : ProcResult) (sessions : List Session)
    (hc : createRes.exitCode = 0)
    (hl : listSessions listRes = .ok sessions) :
    createSession name wd cmd createRes listRes =
      (match sessions.find? (fun s => s.name == name) with
        | some s => .ok s.pid
        | none => .error (.pidNotResolved name)) := by
  unfold createSession
  rw [if_neg (fun hcon => hcon hc), hl]

theorem find?_eq_filter_head {α : Type} (p : α → Bool) (l : List α) :
    l.find? p = (l.filter p).head? := by
  induction l with
  | nil => rfl
  | cons x xs ih =>
    cases hp : p x
    · rw [List.find?_cons_of_neg xs (by simp [hp]),
        List.filter_cons_of_neg (by simp [hp]), ih]
    · rw [List.find?_cons_of_pos xs hp, List.filter_cons_of_pos hp]
      rfl

theorem splitOnChar_of_not_mem (sep : Char) (l : List Char) (h : sep ∉ l) :
    splitOnChar sep l = [l] := by
  induction l with
  | nil => rfl
  | cons c rest ih =>
    have hc : ¬(c = sep) := fun hh => h (hh ▸ List.mem_cons_self c rest)
    unfold splitOnChar
    rw [if_neg hc, ih (fun hm => h (List.mem_cons_of_mem c hm))]

theorem splitOnChar_append (sep : Char) (a rest : List Char) (h : sep ∉ a) :
    splitOnChar sep (a ++ sep :: rest) = a :: splitOnChar sep rest := by
  induction a with
  | nil =>
    show splitOnChar sep (sep :: rest) = [] :: splitOnChar sep rest
    simp only [splitOnChar]
    rw [if_pos trivial]
  | cons c a2 ih =>
    have hc : ¬(c = sep) := fun hh => h (hh ▸ List.mem_cons_self c a2)
    show splitOnChar sep (c :: (a2 ++ sep :: rest)) = (c :: a2) :: splitOnChar sep rest
    simp only [splitOnChar]
    rw [if_neg hc, ih (fun hm => h (List.mem_cons_of_mem c hm))]

theorem splitFirst_append (sep : Char) (a b : List Char) (h : sep ∉ a) :
    splitFirst sep (a ++ sep :: b) = some (a, b) := by
  induction a with
  | nil =>
    show splitFirst sep (sep :: b) = some ([], b)
    unfold splitFirst
    rw [if_pos rfl]
  | cons c a2 ih =>
    have hc : ¬(c = sep) := fun hh => h (hh ▸ List.mem_cons_self c a2)
    show splitFirst sep (c :: (a2 ++ sep :: b)) = some (c :: a2, b)
    unfold splitFirst
    rw [if_neg hc, ih (fun hm => h (List.mem_cons_of_mem c hm))]
    rfl

theorem parseNat_digits (l : List Char) (hne : l ≠ [])
    (hd : ∀ c ∈ l, c.isDigit = true) :
    parseNat l = some (decimalValue l) := by
  have h1 : l.isEmpty = false := by
    cases l
    · exact absurd rfl hne
    · rfl
  have h2 : l.all Char.isDigit = true := List.all_eq_true.mpr hd
  unfold parseNat
  rw [h1, h2]
  rfl

theorem parseSessionLine_wellformed (nameChars pidChars : List Char)
    (hname : nameChars ≠ []) (hnc : ':' ∉ nameChars)
    (hpne : pidChars ≠ []) (hpd : ∀ c ∈ pidChars, c.isDigit = true) :
    parseSessionLine (nameChars ++ ':' :: pidChars)
      = some ⟨String.mk nameChars, decimalValue pidChars⟩ := by
  unfold parseSessionLine
  rw [splitFirst_append ':' nameChars pidChars hnc]
  show (if nameChars.isEmpty = true then (none : Option Session)
    else match parseNat pidChars with
      | none => none
      | some pid => some (Session.mk (String.mk nameChars) pid))
    = some (Session.mk (String.mk nameChars) (decimalValue pidChars))
  have h1 : nameChars.isEmpty = false := by
    cases nameChars
    · exact absurd rfl hname
    · rfl
  rw [if_neg (by rw [h1]; exact Bool.noConfusion),
    parseNat_digits pidChars hpne hpd]

theorem rawLines_cons (p : String × String) (ps : List (String × String)) :
    rawLines (p :: ps) = (p.1.data ++ ':' :: p.2.data) ++ '\n' :: rawLines ps := by
  show p.1.data ++ ':' :: (p.2.data ++ '\n' :: rawLines ps)
    = (p.1.data ++ ':' :: p.2.data) ++ '\n' :: rawLines ps
  rw [List.append_assoc]
  rfl

theorem parse_rawLines (ps : List (String × String))
    (h : ∀ p ∈ ps, p.1 ≠ "" ∧ ':' ∉ p.1.data ∧ '\n' ∉ p.1.data ∧
      p.2.data ≠ [] ∧ ∀ c ∈ p.2.data, c.isDigit = true) :
    (splitOnChar '\n' (rawLines ps)).filterMap parseSessionLine
      = ps.map (fun p => ⟨p.1, decimalValue p.2.data⟩) := by
  induction ps with
  | nil => rfl
  | cons p ps ih =>
    obtain ⟨h1, h2, h3, h4, h5⟩ := h p (List.mem_cons_self p ps)
    have hline : '\n' ∉ p.1.data ++ ':' :: p.2.data := by
      intro hm
      rcases List.mem_append.mp hm with hm | hm
      · exact h3 hm
      · rcases List.mem_cons.mp hm with hm | hm
        · exact absurd hm (by decide)
        · exact absurd (h5 '\n' hm) (by decide)
    have hn1 : p.1.data ≠ [] := fun hd => h1 (String.ext hd)
    rw [rawLines_cons, splitOnChar_append '\n' _ _ hline,
      List.filterMap_cons_some
        (parseSessionLine_wellformed p.1.data p.2.data hn1 h2 h4 h5),
      ih (fun q hq => h q (List.mem_cons_of_mem p hq)), List.map_cons]

theorem splitOnChar_joinChars (lines : List (List Char)) (hne : lines ≠ [])
    (h : ∀ l ∈ lines, '\n' ∉ l) :
    splitOnChar '\n' (joinChars lines) = lines := by
  induction lines with
  | nil => exact absurd rfl hne
  | cons l rest ih =>
    cases rest with
    | nil =>
      show splitOnChar '\n' l = [l]
      exact splitOnChar_of_not_mem '\n' l (h l (List.mem_cons_self l []))
    | cons l2 rest2 =>
      show splitOnChar '\n' (l ++ '\n' :: joinChars (l2 :: rest2))
        = l :: (l2 :: rest2)
      rw [splitOnChar_append '\n' l _ (h l (List.mem_cons_self l _)),
        ih (by simp) (fun q hq => h q (List.mem_cons_of_mem l hq))]

/-- C1: when the list invocation exits non-zero and its stderr contains
"no server running" or "no sessions", `listSessions` returns the empty
sequence of sessions and raises no error. -/
theorem listSessions_benign_empty (r : ProcResult) (hne : r.exitCode ≠ 0)
    (hb : containsSub r.stderr "no server running" = true ∨
      containsSub r.stderr "no sessions" = true) :
    listSessions r = .ok [] := by
  have hbe : isBenignEmpty r.stderr = true := by
    unfold isBenignEmpty
    rcases hb with h | h <;> simp [h]
  unfold listSessions
  rw [if_neg hne, if_pos hbe]

theorem listSessions_benign_empty_witness :
    listSessions ⟨"", "no server running on /tmp/tmux-501/default", 1⟩ = .ok [] :=
  listSessions_benign_empty ⟨"", "no server running on /tmp/tmux-501/default", 1⟩
    (by decide) (Or.inl (by decide))

/-- C2: when the list invocation exits non-zero and its stderr is not one of
the recognized benign-empty phrasings, `listSessions` raises an
invocation-failure error that carries the stderr text and no session name. -/
theorem listSessions_unrecognized_failure (r : ProcResult) (hne : r.exitCode ≠ 0)
    (h1 : containsSub r.stderr "no server running" = false)
    (h2 : containsSub r.stderr "no sessions" = false) :
    listSessions r = .error (.invocationFailure none r.stderr) ∧
      (DriverError.invocationFailure none r.stderr).subjectName = none ∧
      (DriverError.invocationFailure none r.stderr).diagnostic = some r.stderr := by
  refine ⟨?_, rfl, rfl⟩
  have hbe : isBenignEmpty r.stderr = false := by
    unfold isBenignEmpty
    rw [h1, h2]
    rfl
  unfold listSessions
  rw [if_neg hne, if_neg (by simp [hbe])]

theorem listSessions_unrecognized_failure_witness :
    listSessions ⟨"", "protocol version mismatch", 1⟩
      = .error (.invocationFailure none "protocol version mismatch") ∧
      (DriverError.invocationFailure none "protocol version mismatch").subjectName = none ∧
      (DriverError.invocationFailure none "protocol version mismatch").diagnostic
        = some "protocol version mismatch" :=
  listSessions_unrecognized_failure ⟨"", "protocol version mismatch", 1⟩
    (by decide) (by decide) (by decide)

/-- C3: when the create step exits zero but the subsequent listing does not
contain an entry for the requested name, `createSession` fails with the
pid-not-resolved error naming that session — an error distinct from every
invocation-failure error. -/
theorem createSession_pid_not_resolved (name wd cmd : String)
    (createRes listRes : ProcResult) (sessions : List Session)
    (hc : createRes.exitCode = 0)
    (hl : listSessions listRes = .ok sessions)
    (habsent : ∀ s ∈ sessions, s.name ≠ name) :
    createSession name wd cmd createRes listRes = .error (.pidNotResolved name) ∧
      ∀ (a : Option String) (msg : String),
        DriverError.pidNotResolved name ≠ DriverError.invocationFailure a msg := by
  constructor
  · have hfind : sessions.find? (fun s => s.name == name) = none := by
      rw [List.find?_eq_none]
      intro x hx
      simpa using habsent x hx
    rw [createSession_ok_steps name wd cmd createRes listRes sessions hc hl, hfind]
  · intro a msg h
    exact DriverError.noConfusion h

theorem createSession_pid_not_resolved_witness :
    createSession "my-session" "/tmp" "ls" ⟨"", "", 0⟩ ⟨"other-session:999\n", "", 0⟩
      = .error (.pidNotResolved "my-session") ∧
      ∀ (a : Option String) (msg : String),
        DriverError.pidNotResolved "my-session" ≠ DriverError.invocationFailure a msg :=
  createSession_pid_not_resolved "my-session" "/tmp" "ls" ⟨"", "", 0⟩
    ⟨"other-session:999\n", "", 0⟩ [⟨"other-session", 999⟩] rfl rfl (by decide)

/-- C4: for a well-formed list output of `name:pid` lines — non-empty,
colon-free, newline-free names and non-empty digit pid fields — the parse
returns exactly one Session per line, in input order, with each record
holding that line's name and the numeric value of its pid field. -/
theorem listSessions_parses_wellformed (ps : List (String × String))
    (errText : String)
    (h : ∀ p ∈ ps, p.1 ≠ "" ∧ ':' ∉ p.1.data ∧ '\n' ∉ p.1.data ∧
      p.2.data ≠ [] ∧ ∀ c ∈ p.2.data, c.isDigit = true) :
    listSessions ⟨String.mk (rawLines ps), errText, 0⟩
      = .ok (ps.map (fun p => ⟨p.1, decimalValue p.2.data⟩)) := by
  unfold listSessions
  rw [if_pos rfl]
  exact congrArg Except.ok (parse_rawLines ps h)

theorem listSessions_parses_wellformed_witness :
    listSessions
        ⟨String.mk (rawLines [("overstory-auth", "42"), ("overstory-data", "99")]),
          "", 0⟩
      = .ok [⟨"overstory-auth", 42⟩, ⟨"overstory-data", 99⟩] :=
  listSessions_parses_wellformed [("overstory-auth", "42"), ("overstory-data", "99")]
    "" (by decide)

/-- C5: a line with no colon, an empty name segment, or a non-numeric pid
segment is excluded from the parse while the remaining well-formed lines are
still parsed; in particular the four-line input of the specification parses
to exactly the single Session valid-session with pid 123. -/
theorem listSessions_skips_malformed :
    (∀ lines : List (List Char), lines ≠ [] → (∀ l ∈ lines, '\n' ∉ l) →
      parseSessions (String.mk (joinChars lines))
        = lines.filterMap parseSessionLine) ∧
      (∀ line : List Char, splitFirst ':' line = none →
        parseSessionLine line = none) ∧
      (∀ (line namePart pidPart : List Char),
        splitFirst ':' line = some (namePart, pidPart) →
        namePart = [] ∨ parseNat pidPart = none →
        parseSessionLine line = none) ∧
      listSessions ⟨"valid-session:123\nmalformed-no-colon\n:no-name\n\n", "", 0⟩
        = .ok [⟨"valid-session", 123⟩] := by
  refine ⟨?_, ?_, ?_, rfl⟩
  · intro lines hne hnl
    show (splitOnChar '\n' (joinChars lines)).filterMap parseSessionLine
      = lines.filterMap parseSessionLine
    rw [splitOnChar_joinChars lines hne hnl]
  · intro line hsplit
    unfold parseSessionLine
    rw [hsplit]
  · intro line namePart pidPart hsplit hbad
    unfold parseSessionLine
    rw [hsplit]
    show (if namePart.isEmpty = true then (none : Option Session)
      else match parseNat pidPart with
        | none => none
        | some pid => some (Session.mk (String.mk namePart) pid)) = none
    rcases hbad with hb | hb
    · subst hb
      rfl
    · cases namePart with
      | nil => rfl
      | cons c cs =>
        rw [if_neg (by simp), hb]

theorem listSessions_skips_malformed_witness :
    listSessions ⟨"valid-session:123\nmalformed-no-colon\n:no-name\n\n", "", 0⟩
      = .ok [⟨"valid-session", 123⟩] :=
  listSessions_skips_malformed.2.2.2

/-- C6: when the create step and the listing both succeed and the listing
contains the entry for the requested name, `createSession` returns the pid
paired with exactly that name, other unrelated sessions notwithstanding. -/
theorem createSession_matching_pid (name wd cmd : String)
    (createRes listRes : ProcResult) (sessions : List Session) (pid : Nat)
    (hc : createRes.exitCode = 0)
    (hl : listSessions listRes = .ok sessions)
    (hfilter : sessions.filter (fun s => s.name == name) = [⟨name, pid⟩]) :
    createSession name wd cmd createRes listRes = .ok pid := by
  have hfind : sessions.find? (fun s => s.name == name) = some ⟨name, pid⟩ := by
    rw [find?_eq_filter_head, hfilter]
    rfl
  rw [createSession_ok_steps name wd cmd createRes listRes sessions hc hl, hfind]

theorem createSession_matching_pid_witness :
    createSession "overstory-auth" "/repo/worktrees/auth" "claude"
      ⟨"", "", 0⟩ ⟨"overstory-auth:42\noverstory-data:99\n", "", 0⟩ = .ok 42 :=
  createSession_matching_pid "overstory-auth" "/repo/worktrees/auth" "claude"
    ⟨"", "", 0⟩ ⟨"overstory-auth:42\noverstory-data:99\n", "", 0⟩
    [⟨"overstory-auth", 42⟩, ⟨"overstory-data", 99⟩] 42 rfl rfl (by decide)

/-- C7: `isSessionAlive` has no error channel; it answers true exactly when
the probe exits zero and false for every non-zero exit, whatever stderr
holds. -/
theorem isSessionAlive_spec (name : String) (r : ProcResult) :
    (isSessionAlive name r = true ↔ r.exitCode = 0) ∧
      (r.exitCode ≠ 0 → isSessionAlive name r = false) := by
  constructor
  · simp [isSessionAlive]
  · intro h
    simp [isSessionAlive, h]

theorem isSessionAlive_spec_witness :
    isSessionAlive "nonexistent" ⟨"", "cannot find session: nonexistent", 1⟩ = false :=
  (isSessionAlive_spec "nonexistent" ⟨"", "cannot find session: nonexistent", 1⟩).2
    (by decide)

/-- C8: on a non-zero exit, `killSession` and `sendKeys` raise an error whose
subject-name field is exactly the requested name, readable directly from the
error value, alongside the stderr text. -/
theorem kill_send_error_carries_name (name text : String) (r : ProcResult)
    (h : r.exitCode ≠ 0) :
    (∃ e, killSession name r = .error e ∧ e.subjectName = some name ∧
        e.diagnostic = some r.stderr) ∧
      (∃ e, sendKeys name text r = .error e ∧ e.subjectName = some name ∧
        e.diagnostic = some r.stderr) := by
  constructor
  · exact ⟨.invocationFailure (some name) r.stderr,
      by unfold killSession; rw [if_neg h], rfl, rfl⟩
  · exact ⟨.invocationFailure (some name) r.stderr,
      by unfold sendKeys; rw [if_neg h], rfl, rfl⟩

theorem kill_send_error_carries_name_witness :
    (∃ e, killSession "ghost-agent" ⟨"", "session not found: ghost-agent", 1⟩
        = .error e ∧ e.subjectName = some "ghost-agent" ∧
        e.diagnostic = some "session not found: ghost-agent") ∧
      (∃ e, sendKeys "ghost-agent" "test command"
          ⟨"", "session not found: ghost-agent", 1⟩
        = .error e ∧ e.subjectName = some "ghost-agent" ∧
        e.diagnostic = some "session not found: ghost-agent") :=
  kill_send_error_carries_name "ghost-agent" "test command"
    ⟨"", "session not found: ghost-agent", 1⟩ (by decide)

/-- C9: `printToConsole` is silent exactly for debug events in non-verbose
mode; otherwise it emits exactly the formatted line, to stderr for error
events and to stdout for every other level. -/
theorem printToConsole_routing (event : LogEvent) (verbose : Bool) :
    (verbose = false → event.level = Level.debug →
      printToConsole event verbose = .silent) ∧
      ((verbose = true ∨ event.level ≠ Level.debug) →
        (event.level = Level.error →
          printToConsole event verbose = .stderrLine (formatLogLine event)) ∧
        (event.level ≠ Level.error →
          printToConsole event verbose = .stdoutLine (formatLogLine event))) := by
  constructor
  · intro hv hd
    unfold printToConsole
    rw [if_pos ⟨hv, hd⟩]
  · intro hok
    have hnd : ¬(verbose = false ∧ event.level = Level.debug) := by
      rcases hok with h | h
      · intro hand
        rw [h] at hand
        exact Bool.noConfusion hand.1
      · exact fun hand => h hand.2
    constructor
    · intro he
      unfold printToConsole
      rw [if_neg hnd]
      show (if event.level = Level.error then ConsoleWrite.stderrLine (formatLogLine event)
        else ConsoleWrite.stdoutLine (formatLogLine event)) = _
      rw [if_pos he]
    · intro hne
      unfold printToConsole
      rw [if_neg hnd]
      show (if event.level = Level.error then ConsoleWrite.stderrLine (formatLogLine event)
        else ConsoleWrite.stdoutLine (formatLogLine event)) = _
      rw [if_neg hne]

theorem printToConsole_routing_witness :
    printToConsole ⟨"ts", Level.debug, none, "evt", []⟩ false = .silent ∧
      printToConsole ⟨"ts", Level.error, none, "evt", []⟩ false
        = .stderrLine (formatLogLine ⟨"ts", Level.error, none, "evt", []⟩) ∧
      printToConsole ⟨"ts", Level.info, none, "evt", []⟩ false
        = .stdoutLine (formatLogLine ⟨"ts", Level.info, none, "evt", []⟩) :=
  ⟨(printToConsole_routing ⟨"ts", Level.debug, none, "evt", []⟩ false).1 rfl rfl,
    ((printToConsole_routing ⟨"ts", Level.error, none, "evt", []⟩ false).2
      (Or.inr (by decide))).1 rfl,
    ((printToConsole_routing ⟨"ts", Level.info, none, "evt", []⟩ false).2
      (Or.inr (by decide))).2 (by decide)⟩

theorem timeShape_length (l : List Char) (h : timeShape l = true) :
    l.length = 8 := by
  unfold timeShape at h
  split at h
  · simp_all
  · exact Bool.noConfusion h

theorem startsWithTime_elim (c : Char) (rest : List Char)
    (h : startsWithTime (c :: rest) = true) :
    c = 'T' ∧ timeShape (rest.take 8) = true := by
  unfold startsWithTime at h
  simpa using h

theorem extractTimeAux_sound (l : List Char) (t : String)
    (h : extractTimeAux l = some t) :
    (∃ pre suf, l = pre ++ 'T' :: t.data ++ suf) ∧ timeShape t.data = true := by
  induction l with
  | nil => exact Option.noConfusion h
  | cons c rest ih =>
    unfold extractTimeAux at h
    by_cases hs : startsWithTime (c :: rest) = true
    · rw [if_pos hs] at h
      have ht : String.mk (rest.take 8) = t := Option.some.inj h
      obtain ⟨hc, hts⟩ := startsWithTime_elim c rest hs
      subst ht
      subst hc
      refine ⟨⟨[], rest.drop 8, ?_⟩, hts⟩
      show 'T' :: rest = 'T' :: (rest.take 8 ++ rest.drop 8)
      rw [List.take_append_drop]
    · rw [if_neg hs] at h
      obtain ⟨⟨pre, suf, heq⟩, hts⟩ := ih h
      exact ⟨⟨c :: pre, suf, congrArg (List.cons c) heq⟩, hts⟩

theorem extractTimeAux_complete (pre t suf : List Char)
    (ht : timeShape t = true) :
    (extractTimeAux (pre ++ 'T' :: t ++ suf)).isSome = true := by
  induction pre with
  | nil =>
    show (extractTimeAux ('T' :: (t ++ suf))).isSome = true
    have h8 : (t ++ suf).take 8 = t := by
      rw [← timeShape_length t ht]
      exact List.take_left t suf
    have hs : startsWithTime ('T' :: (t ++ suf)) = true := by
      show ('T' == 'T' && timeShape ((t ++ suf).take 8)) = true
      rw [h8]
      simp [ht]
    unfold extractTimeAux
    rw [if_pos hs]
    rfl
  | cons c pre2 ih =>
    show (extractTimeAux (c :: (pre2 ++ 'T' :: t ++ suf))).isSome = true
    unfold extractTimeAux
    by_cases hs : startsWithTime (c :: (pre2 ++ 'T' :: t ++ suf)) = true
    · rw [if_pos hs]
      rfl
    · rw [if_neg hs]
      exact ih

theorem str_append_assoc (a b c : String) : a ++ b ++ c = a ++ (b ++ c) := by
  apply String.ext
  rw [String.data_append, String.data_append, String.data_append,
    String.data_append]
  exact List.append_assoc a.data b.data c.data

/-- C10: `extractTime` is total: when the timestamp contains a literal T
followed by a two-digit:two-digit:two-digit group it returns such an
HH:MM:SS group taken from the timestamp, and otherwise it returns the raw
timestamp unchanged; and `formatLogLine` always embeds the bracketed
`extractTime` of the event's timestamp. -/
theorem extractTime_total (ts : String) :
    ((∃ pre t suf, ts.data = pre ++ 'T' :: t ++ suf ∧ timeShape t = true) →
      ∃ t : String, extractTime ts = t ∧ timeShape t.data = true ∧
        ∃ pre suf, ts.data = pre ++ 'T' :: t.data ++ suf) ∧
      ((¬ ∃ pre t suf, ts.data = pre ++ 'T' :: t ++ suf ∧ timeShape t = true) →
        extractTime ts = ts) ∧
      ∀ ev : LogEvent, ∃ a b : String,
        formatLogLine ev = a ++ "[" ++ extractTime ev.timestamp ++ "]" ++ b := by
  refine ⟨?_, ?_, ?_⟩
  · rintro ⟨pre, t, suf, heq, ht⟩
    have hsome : (extractTimeAux ts.data).isSome = true := by
      rw [heq]
      exact extractTimeAux_complete pre t suf ht
    cases haux : extractTimeAux ts.data with
    | none =>
      rw [haux] at hsome
      exact Bool.noConfusion hsome
    | some t2 =>
      obtain ⟨⟨pre2, suf2, heq2⟩, hts2⟩ := extractTimeAux_sound ts.data t2 haux
      refine ⟨t2, ?_, hts2, pre2, suf2, heq2⟩
      unfold extractTime
      rw [haux]
  · intro hno
    unfold extractTime
    cases haux : extractTimeAux ts.data with
    | none => rfl
    | some t2 =>
      exfalso
      obtain ⟨⟨pre2, suf2, heq2⟩, hts2⟩ := extractTimeAux_sound ts.data t2 haux
      exact hno ⟨pre2, t2.data, suf2, heq2, hts2⟩
  · intro ev
    refine ⟨ANSI.dim,
      ANSI.reset ++ " " ++ levelColor ev.level ++ ANSI.bold ++
        levelLabel ev.level ++ ANSI.reset ++ " " ++
        (match ev.agentName with
          | some a => if a = "" then "" else ANSI.dim ++ a ++ ANSI.reset ++ " | "
          | none => "") ++ ev.event ++
        (if (formatData ev.data).length > 0 then
          " " ++ ANSI.dim ++ formatData ev.data ++ ANSI.reset
        else ""), ?_⟩
    simp only [formatLogLine]
    simp [str_append_assoc]

theorem extractTime_total_witness :
    ∃ t : String, extractTime "2024-01-15T14:30:00.123Z" = t ∧
      timeShape t.data = true ∧
      ∃ pre suf, ("2024-01-15T14:30:00.123Z" : String).data
        = pre ++ 'T' :: t.data ++ suf :=
  (extractTime_total "2024-01-15T14:30:00.123Z").1
    ⟨"2024-01-15".data, "14:30:00".data, ".123Z".data, by decide, by decide⟩

end Overstory
